import Mathlib

/-!
# Verification of the `reactor_core_ts` scheduling core

This file gives a shallow embedding, in Lean 4, of the scheduling library
consisting of `disposable.ts` (the `CallbackDisposable` class and the shared
`Disposables.REJECTED` sentinel), `schedulers.ts` (`DefaultScheduler`,
`DefaultWorker`, `PeriodicTask`, `WorkerTask`, `WorkerPeriodicTask`) and the
type declarations of `types.d.ts`.

The host timer environment (`setTimeout` / `setInterval` / `clearTimeout` /
`clearInterval` and the single-threaded event loop dispatching timer
callbacks) is modelled explicitly: a system state `Sys` holds a virtual clock,
the set of armed timers, the heap of live task/worker objects, an execution
log, and the list of exceptions that escaped to the host dispatch.  Timer
callbacks are the finitely many closures occurring in the source, embedded as
the inductive `Callback`; `runCallback` is the line-by-line translation of
each closure's body.  Task closures are modelled by an environment `Env`
assigning to each task identifier, per firing index, whether the closure
throws and how long its (blocking, synchronous) execution takes; the clock
advances by that duration while the closure runs, exactly as a blocking task
delays subsequent statements of the same callback in the single-threaded
host.  Every definition is translated from the TypeScript source.
-/

/-! ## `disposable.ts`: `CallbackDisposable`

The class holds an optional callback.  The source of `dispose` is
`this.#callback?.();` — it invokes the stored callback when present and,
notably, never clears the `#callback` field.  The callback is modelled as a
state transformer on an arbitrary effect state `E`; `dispose` returns the
(unchanged) object together with the new effect state. -/

structure CallbackDisposable (E : Type) where
  callback : Option (E → E)

def CallbackDisposable.dispose {E : Type} (d : CallbackDisposable E) (e : E) :
    CallbackDisposable E × E :=
  match d.callback with
  | some cb => (d, cb e)
  | none => (d, e)

/-- Calling `dispose` repeatedly, `n` times in sequence, threading the object
and the effect state. -/
def CallbackDisposable.disposeN {E : Type} (d : CallbackDisposable E) (e : E) :
    Nat → CallbackDisposable E × E
  | 0 => (d, e)
  | n + 1 =>
    let r := CallbackDisposable.disposeN d e n
    r.1.dispose r.2

/-! ## The object heap and the timer system -/

/-- A `PeriodicTask` object (scheduler-level periodic task): the task closure
identifier plus the two optional raw timer identifiers. -/
structure PTask where
  task : Nat
  initialId : Option Nat := none
  periodId : Option Nat := none
deriving DecidableEq

/-- A `WorkerTask` object: parent worker key, task closure identifier, and the
optional one-shot timer identifier. -/
structure WTask where
  parent : Nat
  task : Nat
  id : Option Nat := none
deriving DecidableEq

/-- A `WorkerPeriodicTask` object: parent worker key plus the `PeriodicTask`
fields it inherits. -/
structure WPTask where
  parent : Nat
  task : Nat
  initialId : Option Nat := none
  periodId : Option Nat := none
deriving DecidableEq

/-- A `DefaultWorker`'s own state: the `#shutdown` flag and the two growable
tracking collections `#timeouts` and `#intervals` of raw timer identifiers. -/
structure WorkerState where
  shutdown : Bool
  timeouts : List Nat
  intervals : List Nat
deriving DecidableEq

/-- The timer callbacks occurring in the source, one constructor per closure:
the bare task of `DefaultScheduler.schedule`, the initial closure of
`DefaultScheduler.schedulePeriodically` (capturing `options.period`),
`PeriodicTask.run` as interval callback, `WorkerTask.run`, the initial closure
of `DefaultWorker.schedulePeriodically` (capturing `options.period`), and
`WorkerPeriodicTask.run`.  Object references are heap keys. -/
inductive Callback where
  | plain (t : Nat)
  | schedInitial (k : Nat) (period : Nat)
  | ptRun (k : Nat)
  | wtRun (k : Nat)
  | wInitial (k : Nat) (period : Nat)
  | wptRun (k : Nat)
deriving DecidableEq

/-- An armed host timer: identifier, absolute due time, `period = none` for a
`setTimeout` timer and `some p` for a `setInterval` timer, and its callback. -/
structure Timer where
  id : Nat
  due : Nat
  period : Option Nat
  cb : Callback
deriving DecidableEq

/-- The whole system state: virtual clock, timer-identifier allocator (host
identifiers start at 1), object-key allocator, armed timers, the object heaps,
the execution log (firing time, task identifier), and the exceptions that
escaped the timer callbacks into the host dispatch. -/
structure Sys where
  clock : Nat
  nextId : Nat
  nextObj : Nat
  timers : List Timer
  ptasks : List (Nat × PTask)
  wtasks : List (Nat × WTask)
  wptasks : List (Nat × WPTask)
  workers : List (Nat × WorkerState)
  log : List (Nat × Nat)
  uncaught : List (Nat × Nat)
deriving DecidableEq

def emptySys : Sys :=
  { clock := 0, nextId := 1, nextObj := 0, timers := [], ptasks := [],
    wtasks := [], wptasks := [], workers := [], log := [], uncaught := [] }

/-- Behaviour of a task closure: for the `k`-th execution (0-based), whether
the closure throws, and how long its synchronous execution blocks the host. -/
structure TaskSpec where
  throwsOn : Nat → Bool
  dur : Nat → Nat

def Env : Type := Nat → TaskSpec

/-! ### Association-list helpers for the object heaps -/

def lookupA {α : Type} (k : Nat) : List (Nat × α) → Option α
  | [] => none
  | e :: r => if e.1 = k then some e.2 else lookupA k r

def updateA {α : Type} (k : Nat) (f : α → α) (l : List (Nat × α)) :
    List (Nat × α) :=
  l.map fun e => if e.1 = k then (e.1, f e.2) else e

/-- Read a worker's state; an absent key yields the inert default record. -/
def getW (w : Nat) (s : Sys) : WorkerState :=
  (lookupA w s.workers).getD ⟨false, [], []⟩

/-! ### Host timer primitives -/

/-- `setTimeout(cb, d)`: allocate a fresh identifier and arm a one-shot timer
due `d` from now. -/
def setTimeout (cb : Callback) (d : Nat) (s : Sys) : Nat × Sys :=
  (s.nextId,
   { s with nextId := s.nextId + 1,
            timers := s.timers ++ [⟨s.nextId, s.clock + d, none, cb⟩] })

/-- `setInterval(cb, p)`: allocate a fresh identifier and arm a recurring
timer whose first firing is `p` from now. -/
def setInterval (cb : Callback) (p : Nat) (s : Sys) : Nat × Sys :=
  (s.nextId,
   { s with nextId := s.nextId + 1,
            timers := s.timers ++ [⟨s.nextId, s.clock + p, some p, cb⟩] })

/-- `clearTimeout(i)` / `clearInterval(i)`: cancel the armed timer with that
identifier, if any. -/
def clearTimer (i : Nat) (s : Sys) : Sys :=
  { s with timers := s.timers.filter fun tm => tm.id ≠ i }

/-- `clearTimeout(x)` where `x : number | undefined` — with `undefined` the
host call is a no-op. -/
def clearTimerOpt (i : Option Nat) (s : Sys) : Sys :=
  match i with
  | some j => clearTimer j s
  | none => s

/-- Execute a task closure: record the firing in the log at the current
clock, advance the clock by the execution's duration, and report whether this
execution throws.  The firing index is the number of earlier executions of
the same task. -/
def execTask (env : Env) (t : Nat) (s : Sys) : Bool × Sys :=
  let k := s.log.countP fun e => e.2 == t
  ((env t).throwsOn k,
   { s with log := s.log ++ [(s.clock, t)], clock := s.clock + (env t).dur k })

/-- An exception escapes a timer callback into the host dispatch. -/
def raiseUncaught (t : Nat) (s : Sys) : Sys :=
  { s with uncaught := s.uncaught ++ [(s.clock, t)] }

/-- JavaScript truthiness of an optional timer identifier (`if (id)`): both
`undefined` and `0` are falsy. -/
def isTruthy : Option Nat → Bool
  | none => false
  | some n => n ≠ 0

/-! ## `schedulers.ts`: the worker's de-registration helpers and `shutdown` -/

/-- `DefaultWorker.removeTimeout(id?)`: `if (id) { idx = indexOf(id); if (idx
>= 0) splice(idx, 1) }` — remove the first occurrence of `id` from the
`#timeouts` collection, skipped entirely when `id` is `undefined` or `0`
(falsy). -/
def DefaultWorker.removeTimeout (w : Nat) (id : Option Nat) (s : Sys) : Sys :=
  if isTruthy id then
    let f := fun ws => { ws with timeouts := ws.timeouts.erase (id.getD 0) }
    { s with workers := updateA w f s.workers }
  else s

/-- `DefaultWorker.removeInterval(id?)`: same on the `#intervals` collection. -/
def DefaultWorker.removeInterval (w : Nat) (id : Option Nat) (s : Sys) : Sys :=
  if isTruthy id then
    let f := fun ws => { ws with intervals := ws.intervals.erase (id.getD 0) }
    { s with workers := updateA w f s.workers }
  else s

/-- `DefaultWorker.shutdown()`: set `#shutdown = true`, `clearInterval` every
identifier in `#intervals`, `clearTimeout` every identifier in `#timeouts`,
then truncate both collections to length 0. -/
def DefaultWorker.shutdown (w : Nat) (s : Sys) : Sys :=
  let ws := getW w s
  let setFlag := fun v => { v with shutdown := true }
  let clearLists := fun v => { v with intervals := ([] : List Nat), timeouts := ([] : List Nat) }
  let s1 := { s with workers := updateA w setFlag s.workers }
  let s2 := ws.intervals.foldl (fun acc i => clearTimer i acc) s1
  let s3 := ws.timeouts.foldl (fun acc i => clearTimer i acc) s2
  { s3 with workers := updateA w clearLists s3.workers }

/-! ## Dispose methods of the task wrappers -/

/-- `PeriodicTask.dispose()`: `if (this.initialId) clearTimeout(initialId);
if (this.periodId) clearInterval(periodId)` (truthiness checks). -/
def PeriodicTask.dispose (k : Nat) (s : Sys) : Sys :=
  match lookupA k s.ptasks with
  | none => s
  | some o =>
    let s1 := if isTruthy o.initialId then clearTimer (o.initialId.getD 0) s else s
    if isTruthy o.periodId then clearTimer (o.periodId.getD 0) s1 else s1

/-- `WorkerTask.dispose()`: `clearTimeout(this.id);
this.#parent.removeTimeout(this.id)`. -/
def WorkerTask.dispose (k : Nat) (s : Sys) : Sys :=
  match lookupA k s.wtasks with
  | none => s
  | some o => DefaultWorker.removeTimeout o.parent o.id (clearTimerOpt o.id s)

/-- `WorkerPeriodicTask.dispose()`: `if (this.initialId) { clearTimeout;
parent.removeTimeout }` (truthiness) and `if (this.periodId != null) {
clearInterval; parent.removeInterval }` (null check only). -/
def WorkerPeriodicTask.dispose (k : Nat) (s : Sys) : Sys :=
  match lookupA k s.wptasks with
  | none => s
  | some o =>
    let s1 := if isTruthy o.initialId then
        DefaultWorker.removeTimeout o.parent o.initialId
          (clearTimer (o.initialId.getD 0) s)
      else s
    if o.periodId.isSome then
      DefaultWorker.removeInterval o.parent o.periodId
        (clearTimer (o.periodId.getD 0) s1)
    else s1

/-! ## The timer callbacks -/

/-- Run one timer callback, the line-by-line translation of each closure in
the source.  A dangling object key (which the source cannot produce) makes
the callback a no-op. -/
def runCallback (env : Env) (cb : Callback) (s : Sys) : Sys :=
  match cb with
  | .plain t =>
    -- DefaultScheduler.schedule arms `setTimeout(task, delay)`: the host
    -- invokes the bare task, so an exception escapes to the dispatch.
    let r := execTask env t s
    if r.1 then raiseUncaught t r.2 else r.2
  | .schedInitial k p =>
    -- `() => { task(); periodicTask.periodId = setInterval(periodicTask.run,
    -- options.period ?? 0); }` — `task()` is not guarded, and the interval is
    -- armed only if it returns normally.
    match lookupA k s.ptasks with
    | none => s
    | some o =>
      let r := execTask env o.task s
      if r.1 then raiseUncaught o.task r.2
      else
        let q := setInterval (.ptRun k) p r.2
        let f := fun x => { x with periodId := some q.1 }
        { q.2 with ptasks := updateA k f q.2.ptasks }
  | .ptRun k =>
    -- `PeriodicTask.run`: `try { this._task() } catch (_) { this.dispose() }`.
    match lookupA k s.ptasks with
    | none => s
    | some o =>
      let r := execTask env o.task s
      if r.1 then PeriodicTask.dispose k r.2 else r.2
  | .wtRun k =>
    -- `WorkerTask.run`: `try { this.#task() } finally {
    -- this.#parent.removeTimeout(this.id) }` — the removal happens on both
    -- paths, and a thrown exception is re-raised to the dispatch afterwards.
    match lookupA k s.wtasks with
    | none => s
    | some o =>
      let r := execTask env o.task s
      let s2 := DefaultWorker.removeTimeout o.parent o.id r.2
      if r.1 then raiseUncaught o.task s2 else s2
  | .wInitial k p =>
    -- `() => { task(); const periodId = setInterval(workerTask.run,
    -- options.period ?? 0); this.#intervals.push(periodId);
    -- workerTask.periodId = periodId; }`.
    match lookupA k s.wptasks with
    | none => s
    | some o =>
      let r := execTask env o.task s
      if r.1 then raiseUncaught o.task r.2
      else
        let q := setInterval (.wptRun k) p r.2
        let g := fun ws => { ws with intervals := ws.intervals ++ [q.1] }
        let f := fun x => { x with periodId := some q.1 }
        let s3 := { q.2 with workers := updateA o.parent g q.2.workers }
        { s3 with wptasks := updateA k f s3.wptasks }
  | .wptRun k =>
    -- `WorkerPeriodicTask.run`: `try { this._task() } catch (_) { if
    -- (this.periodId) { clearInterval(periodId);
    -- this.#parent.removeInterval(periodId) } }`.
    match lookupA k s.wptasks with
    | none => s
    | some o =>
      let r := execTask env o.task s
      if r.1 then
        if isTruthy o.periodId then
          DefaultWorker.removeInterval o.parent o.periodId
            (clearTimer (o.periodId.getD 0) r.2)
        else r.2
      else r.2

/-! ## The event loop -/

/-- Pick the next timer the host dispatches: the earliest-armed timer among
those with the minimal due time. -/
def pickNext : List Timer → Option Timer
  | [] => none
  | t :: ts => some (ts.foldl (fun best u => if u.due < best.due then u else best) t)

/-- One event-loop step: dispatch the next due timer.  A one-shot timer is
consumed before its callback runs; a recurring timer is re-armed at
`due + period` (the host's fixed-rate contract), and the clock jumps to the
timer's due time if it is not already past it. -/
def step (env : Env) (s : Sys) : Option Sys :=
  match pickNext s.timers with
  | none => none
  | some tm =>
    let s1 := { s with
      clock := max s.clock tm.due,
      timers :=
        match tm.period with
        | none => s.timers.filter fun u => u.id ≠ tm.id
        | some p => s.timers.map fun u => if u.id = tm.id then { u with due := tm.due + p } else u }
    some (runCallback env tm.cb s1)

/-- Run the event loop for at most `n` dispatches. -/
def run (env : Env) : Nat → Sys → Sys
  | 0, s => s
  | n + 1, s =>
    match step env s with
    | none => s
    | some s2 => run env n s2

/-! ## The public scheduling API -/

/-- The `Disposable` values the API returns: the `CallbackDisposable` wrapping
`clearTimeout(id)` from `DefaultScheduler.schedule`, the three task wrapper
objects, and the shared `Disposables.REJECTED` sentinel. -/
inductive DisposableRef where
  | callback (i : Nat)
  | ptask (k : Nat)
  | wtask (k : Nat)
  | wptask (k : Nat)
  | rejected
deriving DecidableEq

/-- The single shared `Disposables.REJECTED` sentinel (a `CallbackDisposable`
wrapping a no-op). -/
def Disposables.REJECTED : DisposableRef := .rejected

/-- Dispatch `dispose()` on a returned handle. -/
def DisposableRef.dispose (r : DisposableRef) (s : Sys) : Sys :=
  match r with
  | .callback i => clearTimer i s
  | .ptask k => PeriodicTask.dispose k s
  | .wtask k => WorkerTask.dispose k s
  | .wptask k => WorkerPeriodicTask.dispose k s
  | .rejected => s

/-- `DefaultScheduler.schedule(task, delay?)`. -/
def DefaultScheduler.schedule (t : Nat) (delay : Option Nat) (s : Sys) :
    DisposableRef × Sys :=
  let q := setTimeout (.plain t) (delay.getD 0) s
  (.callback q.1, q.2)

/-- `DefaultScheduler.schedulePeriodically(task, options)`: create the
`PeriodicTask` object, arm the initial `setTimeout`, and assign
`periodicTask.initialId`. -/
def DefaultScheduler.schedulePeriodically (t : Nat) (initialDelay period : Option Nat)
    (s : Sys) : DisposableRef × Sys :=
  let k := s.nextObj
  let s1 := { s with nextObj := k + 1, ptasks := s.ptasks ++ [(k, { task := t })] }
  let q := setTimeout (.schedInitial k (period.getD 0)) (initialDelay.getD 0) s1
  (.ptask k,
   { q.2 with ptasks := updateA k (fun o => { o with initialId := some q.1 }) q.2.ptasks })

/-- `DefaultScheduler.createWorker()`: a fresh `DefaultWorker` with
`#shutdown = false` and empty collections. -/
def DefaultScheduler.createWorker (s : Sys) : Nat × Sys :=
  let k := s.nextObj
  (k, { s with nextObj := k + 1, workers := s.workers ++ [(k, ⟨false, [], []⟩)] })

/-- `DefaultWorker.schedule(task, delay?)`: reject after shutdown, otherwise
create the `WorkerTask`, arm the timer, push its identifier into `#timeouts`
and record it on the wrapper. -/
def DefaultWorker.schedule (w t : Nat) (delay : Option Nat) (s : Sys) :
    DisposableRef × Sys :=
  if (getW w s).shutdown then (Disposables.REJECTED, s)
  else
    let k := s.nextObj
    let s1 := { s with nextObj := k + 1, wtasks := s.wtasks ++ [(k, ⟨w, t, none⟩)] }
    let q := setTimeout (.wtRun k) (delay.getD 0) s1
    let g := fun ws => { ws with timeouts := ws.timeouts ++ [q.1] }
    let f := fun o => { o with id := some q.1 }
    let s3 := { q.2 with workers := updateA w g q.2.workers }
    (.wtask k, { s3 with wtasks := updateA k f s3.wtasks })

/-- `DefaultWorker.schedulePeriodically(task, options)`: reject after
shutdown, otherwise create the `WorkerPeriodicTask`, arm the initial timer
and push its identifier into `#timeouts`.  Note that the source never assigns
`workerTask.initialId`. -/
def DefaultWorker.schedulePeriodically (w t : Nat) (initialDelay period : Option Nat)
    (s : Sys) : DisposableRef × Sys :=
  if (getW w s).shutdown then (Disposables.REJECTED, s)
  else
    let k := s.nextObj
    let s1 := { s with nextObj := k + 1, wptasks := s.wptasks ++ [(k, ⟨w, t, none, none⟩)] }
    let q := setTimeout (.wInitial k (period.getD 0)) (initialDelay.getD 0) s1
    let g := fun ws => { ws with timeouts := ws.timeouts ++ [q.1] }
    (.wptask k, { q.2 with workers := updateA w g q.2.workers })

/-! ## Derived notions used in the statements -/

/-- The tasks that have executed, in firing order. -/
def logTasks (s : Sys) : List Nat :=
  s.log.map fun e => e.2

/-- The task a callback would execute, resolved through the object heaps. -/
def cbTask (s : Sys) : Callback → Option Nat
  | .plain t => some t
  | .schedInitial k _ => (lookupA k s.ptasks).map fun o => o.task
  | .ptRun k => (lookupA k s.ptasks).map fun o => o.task
  | .wtRun k => (lookupA k s.wtasks).map fun o => o.task
  | .wInitial k _ => (lookupA k s.wptasks).map fun o => o.task
  | .wptRun k => (lookupA k s.wptasks).map fun o => o.task

/-- A task value is fresh for a state when no armed timer can execute it and
it has never executed. -/
def FreshTask (t : Nat) (s : Sys) : Prop :=
  (∀ tm ∈ s.timers, cbTask s tm.cb ≠ some t) ∧ t ∉ logTasks s

instance (t : Nat) (s : Sys) : Decidable (FreshTask t s) := by
  unfold FreshTask; infer_instance

/-- Whether a callback belongs to worker `w`, resolved through the heaps. -/
def ownedByB (s : Sys) (w : Nat) : Callback → Bool
  | .wtRun k => ((lookupA k s.wtasks).map fun o => o.parent) == some w
  | .wInitial k _ => ((lookupA k s.wptasks).map fun o => o.parent) == some w
  | .wptRun k => ((lookupA k s.wptasks).map fun o => o.parent) == some w
  | _ => false

/-- The bookkeeping invariant of a worker: every armed timer owned by `w` is
registered in one of `w`'s two tracking collections. -/
def ownedInv (w : Nat) (s : Sys) : Prop :=
  ∀ tm ∈ s.timers, ownedByB s w tm.cb = true →
    tm.id ∈ (getW w s).timeouts ++ (getW w s).intervals

instance (w : Nat) (s : Sys) : Decidable (ownedInv w s) := by
  unfold ownedInv; infer_instance

/-! ## Task environments for the concrete runs -/

/-- Tasks that never throw and execute instantaneously. -/
def env0 : Env := fun _ => ⟨fun _ => false, fun _ => 0⟩

/-- Tasks that throw on every execution. -/
def envThrowAll : Env := fun _ => ⟨fun _ => true, fun _ => 0⟩

/-- Tasks that throw exactly on their firing of index `k0`. -/
def envThrowAt (k0 : Nat) : Env := fun _ => ⟨fun k => k == k0, fun _ => 0⟩

/-- Tasks that never throw; the very first execution blocks for `e`,
subsequent ones are instantaneous. -/
def envDur (e : Nat) : Env := fun _ => ⟨fun _ => false, fun k => if k == 0 then e else 0⟩

/-! ## Basic lemmas about the event loop -/

theorem step_of_timers_nil {env : Env} {s : Sys} (h : s.timers = []) :
    step env s = none := by
  simp [step, h, pickNext]

theorem run_of_step_none {env : Env} {s : Sys} (h : step env s = none) :
    ∀ n, run env n s = s
  | 0 => rfl
  | n + 1 => by simp [run, h]

theorem run_of_timers_nil {env : Env} {s : Sys} (h : s.timers = []) (n : Nat) :
    run env n s = s :=
  run_of_step_none (step_of_timers_nil h) n

theorem run_succ_of_step {env : Env} {s s2 : Sys} (h : step env s = some s2) (n : Nat) :
    run env (n + 1) s = run env n s2 := by
  simp [run, h]

theorem run_add (env : Env) (m n : Nat) (s : Sys) :
    run env (m + n) s = run env n (run env m s) := by
  induction m generalizing s with
  | zero => simp [run, Nat.zero_add]
  | succ m ih =>
    cases h : step env s with
    | none =>
      rw [Nat.succ_add]
      rw [run_of_step_none h, run_of_step_none h, run_of_step_none h]
    | some s2 =>
      rw [Nat.succ_add, run_succ_of_step h, run_succ_of_step h, ih]

/-- The timer picked by `pickNext` is one of the armed timers. -/
theorem pickNext_mem {l : List Timer} {tm : Timer} (h : pickNext l = some tm) :
    tm ∈ l := by
  cases l with
  | nil => simp [pickNext] at h
  | cons a ts =>
    simp only [pickNext, Option.some.injEq] at h
    subst h
    have aux : ∀ (ts : List Timer) (a : Timer),
        (ts.foldl (fun best u => if u.due < best.due then u else best) a) = a ∨
        (ts.foldl (fun best u => if u.due < best.due then u else best) a) ∈ ts := by
      intro ts
      induction ts with
      | nil => intro a; left; rfl
      | cons b r ih =>
        intro a
        simp only [List.foldl_cons]
        rcases ih (if b.due < a.due then b else a) with h1 | h1
        · rw [h1]
          by_cases hb : b.due < a.due
          · right; simp [hb]
          · left; simp [hb]
        · right; exact List.mem_cons_of_mem b h1
    rcases aux ts a with h1 | h1
    · rw [h1]; exact List.mem_cons_self a ts
    · exact List.mem_cons_of_mem a h1

/-! ## Lemmas about the association-list heaps -/

theorem lookupA_updateA {α : Type} (k k2 : Nat) (f : α → α) (l : List (Nat × α)) :
    lookupA k (updateA k2 f l) =
      if k = k2 then (lookupA k l).map f else lookupA k l := by
  induction l with
  | nil => simp [lookupA, updateA]
  | cons e r ih =>
    simp only [updateA, List.map_cons] at ih ⊢
    by_cases h1 : e.1 = k2
    · by_cases h2 : e.1 = k
      · have hk : k = k2 := by rw [← h2, h1]
        simp [lookupA, h1, h2, hk]
      · have hk : ¬ (k = k2) := by intro hh; exact h2 (by rw [hh, ← h1])
        have hk2 : ¬ (k2 = k) := fun hh => hk hh.symm
        simp [lookupA, h1, h2, hk, hk2, ih]
    · by_cases h2 : e.1 = k
      · have hk : ¬ (k = k2) := by intro hh; exact h1 (by rw [h2, hh])
        simp [lookupA, h1, h2, hk]
      · simp [lookupA, h1, h2, ih]

theorem lookupA_updateA_ne {α : Type} {k k2 : Nat} (h : k ≠ k2) (f : α → α)
    (l : List (Nat × α)) : lookupA k (updateA k2 f l) = lookupA k l := by
  rw [lookupA_updateA]; simp [h]

theorem lookupA_map_updateA {α β : Type} (g : α → β) (k k2 : Nat) (f : α → α)
    (hf : ∀ x, g (f x) = g x) (l : List (Nat × α)) :
    (lookupA k (updateA k2 f l)).map g = (lookupA k l).map g := by
  rw [lookupA_updateA]
  split
  · cases lookupA k l <;> simp [hf]
  · rfl

/-! ## Freshness: a task referenced by no armed timer never executes -/

theorem cbTask_congr_eq {s1 s2 : Sys} (hp : s1.ptasks = s2.ptasks)
    (hw : s1.wtasks = s2.wtasks) (hq : s1.wptasks = s2.wptasks) (cb : Callback) :
    cbTask s1 cb = cbTask s2 cb := by
  cases cb <;> simp [cbTask, hp, hw, hq]

theorem cbTask_congr_map {s1 s2 : Sys}
    (hp : ∀ k, (lookupA k s1.ptasks).map (fun o : PTask => o.task) =
      (lookupA k s2.ptasks).map (fun o : PTask => o.task))
    (hw : ∀ k, (lookupA k s1.wtasks).map (fun o : WTask => o.task) =
      (lookupA k s2.wtasks).map (fun o : WTask => o.task))
    (hq : ∀ k, (lookupA k s1.wptasks).map (fun o : WPTask => o.task) =
      (lookupA k s2.wptasks).map (fun o : WPTask => o.task))
    (cb : Callback) : cbTask s1 cb = cbTask s2 cb := by
  cases cb <;> simp [cbTask, hp, hw, hq]

theorem removeTimeout_timers (w : Nat) (i : Option Nat) (s : Sys) :
    (DefaultWorker.removeTimeout w i s).timers = s.timers := by
  unfold DefaultWorker.removeTimeout; split <;> rfl

theorem removeTimeout_heaps (w : Nat) (i : Option Nat) (s : Sys) :
    (DefaultWorker.removeTimeout w i s).ptasks = s.ptasks
    ∧ (DefaultWorker.removeTimeout w i s).wtasks = s.wtasks
    ∧ (DefaultWorker.removeTimeout w i s).wptasks = s.wptasks
    ∧ (DefaultWorker.removeTimeout w i s).log = s.log := by
  unfold DefaultWorker.removeTimeout
  split <;> exact ⟨rfl, rfl, rfl, rfl⟩

theorem removeInterval_timers (w : Nat) (i : Option Nat) (s : Sys) :
    (DefaultWorker.removeInterval w i s).timers = s.timers := by
  unfold DefaultWorker.removeInterval; split <;> rfl

theorem removeInterval_heaps (w : Nat) (i : Option Nat) (s : Sys) :
    (DefaultWorker.removeInterval w i s).ptasks = s.ptasks
    ∧ (DefaultWorker.removeInterval w i s).wtasks = s.wtasks
    ∧ (DefaultWorker.removeInterval w i s).wptasks = s.wptasks
    ∧ (DefaultWorker.removeInterval w i s).log = s.log := by
  unfold DefaultWorker.removeInterval
  split <;> exact ⟨rfl, rfl, rfl, rfl⟩

theorem ptDispose_timers {k : Nat} {s : Sys} {tm : Timer}
    (h : tm ∈ (PeriodicTask.dispose k s).timers) : tm ∈ s.timers := by
  unfold PeriodicTask.dispose at h
  rcases hl : lookupA k s.ptasks with _ | o <;> rw [hl] at h
  · exact h
  · dsimp only at h
    split at h <;> split at h <;>
      (try simp only [clearTimer, List.mem_filter] at h) <;>
      first
        | exact h
        | exact h.1
        | exact h.1.1

theorem ptDispose_heaps (k : Nat) (s : Sys) :
    (PeriodicTask.dispose k s).ptasks = s.ptasks
    ∧ (PeriodicTask.dispose k s).wtasks = s.wtasks
    ∧ (PeriodicTask.dispose k s).wptasks = s.wptasks
    ∧ (PeriodicTask.dispose k s).log = s.log := by
  unfold PeriodicTask.dispose
  rcases lookupA k s.ptasks with _ | o
  · exact ⟨rfl, rfl, rfl, rfl⟩
  · dsimp only
    split <;> split <;> exact ⟨rfl, rfl, rfl, rfl⟩

/-- Freshness transfers to a state whose heaps are unchanged, whose timers are
a subset, and whose log grew by one firing of a different task. -/
theorem fresh_sub_sys (s : Sys) (τ c : Nat) {s2 : Sys} {t : Nat}
    (h1 : s2.ptasks = s.ptasks) (h2 : s2.wtasks = s.wtasks)
    (h3 : s2.wptasks = s.wptasks)
    (h4 : ∀ tm ∈ s2.timers, tm ∈ s.timers)
    (h5 : s2.log = s.log ++ [(c, τ)])
    (ht : ∀ tm ∈ s.timers, cbTask s tm.cb ≠ some t)
    (hl : t ∉ logTasks s) (hτ : τ ≠ t) :
    (∀ tm ∈ s2.timers, cbTask s2 tm.cb ≠ some t) ∧ t ∉ logTasks s2 := by
  constructor
  · intro tm hm
    rw [cbTask_congr_eq h1 h2 h3]
    exact ht tm (h4 tm hm)
  · rw [show logTasks s2 = logTasks s ++ [τ] by simp [logTasks, h5]]
    intro hmem
    rcases List.mem_append.mp hmem with h | h
    · exact hl h
    · exact hτ (List.mem_singleton.mp h).symm

/-- Freshness transfers to a state that additionally armed one new timer whose
resolved task is not the fresh one. -/
theorem fresh_new_timer (s : Sys) (τ c : Nat) {s2 : Sys} {t : Nat} (nt : Timer)
    (h1 : ∀ cb, cbTask s2 cb = cbTask s cb)
    (h4 : ∀ tm ∈ s2.timers, tm ∈ s.timers ∨ tm = nt)
    (hnt : cbTask s nt.cb ≠ some t)
    (h5 : s2.log = s.log ++ [(c, τ)])
    (ht : ∀ tm ∈ s.timers, cbTask s tm.cb ≠ some t)
    (hl : t ∉ logTasks s) (hτ : τ ≠ t) :
    (∀ tm ∈ s2.timers, cbTask s2 tm.cb ≠ some t) ∧ t ∉ logTasks s2 := by
  constructor
  · intro tm hm
    rw [h1]
    rcases h4 tm hm with h | h
    · exact ht tm h
    · rw [h]; exact hnt
  · rw [show logTasks s2 = logTasks s ++ [τ] by simp [logTasks, h5]]
    intro hmem
    rcases List.mem_append.mp hmem with h | h
    · exact hl h
    · exact hτ (List.mem_singleton.mp h).symm

/-- Dispatching any single timer callback preserves freshness of a task no
armed timer resolves to. -/
theorem runCallback_fresh (env : Env) (cb : Callback) (t : Nat) (s : Sys)
    (hcb : cbTask s cb ≠ some t)
    (ht : ∀ tm ∈ s.timers, cbTask s tm.cb ≠ some t)
    (hl : t ∉ logTasks s) :
    (∀ tm ∈ (runCallback env cb s).timers,
        cbTask (runCallback env cb s) tm.cb ≠ some t)
    ∧ t ∉ logTasks (runCallback env cb s) := by
  cases cb with
  | plain t2 =>
    have hτ : t2 ≠ t := by
      intro hh; exact hcb (by simp [cbTask, hh])
    simp only [runCallback]
    split
    · exact fresh_sub_sys s t2 s.clock rfl rfl rfl (fun tm hm => hm) rfl ht hl hτ
    · exact fresh_sub_sys s t2 s.clock rfl rfl rfl (fun tm hm => hm) rfl ht hl hτ
  | schedInitial k p =>
    rcases hk : lookupA k s.ptasks with _ | o
    · simp only [runCallback, hk]
      exact ⟨ht, hl⟩
    · have hτ : o.task ≠ t := by simpa [cbTask, hk] using hcb
      simp only [runCallback, hk]
      split
      · exact fresh_sub_sys s o.task s.clock rfl rfl rfl (fun tm hm => hm) rfl ht hl hτ
      · refine fresh_new_timer s o.task s.clock
          ⟨(execTask env o.task s).2.nextId, (execTask env o.task s).2.clock + p,
            some p, .ptRun k⟩ ?_ ?_ ?_ rfl ht hl hτ
        · intro cb2
          refine cbTask_congr_map ?_ ?_ ?_ cb2
          · intro k2
            exact lookupA_map_updateA (fun x : PTask => x.task) k2 k
              (fun x => { x with periodId := some (setInterval (Callback.ptRun k) p (execTask env o.task s).2).1 })
              (fun _ => rfl) s.ptasks
          · intro k2; rfl
          · intro k2; rfl
        · intro tm hm
          rcases List.mem_append.mp hm with h | h
          · exact Or.inl h
          · exact Or.inr (List.mem_singleton.mp h)
        · simpa [cbTask, hk] using hτ
  | ptRun k =>
    rcases hk : lookupA k s.ptasks with _ | o
    · simp only [runCallback, hk]
      exact ⟨ht, hl⟩
    · have hτ : o.task ≠ t := by simpa [cbTask, hk] using hcb
      simp only [runCallback, hk]
      split
      · refine fresh_sub_sys s o.task s.clock ?_ ?_ ?_ ?_ ?_ ht hl hτ
        · exact (ptDispose_heaps k (execTask env o.task s).2).1
        · exact (ptDispose_heaps k (execTask env o.task s).2).2.1
        · exact (ptDispose_heaps k (execTask env o.task s).2).2.2.1
        · exact fun tm hm => @ptDispose_timers k (execTask env o.task s).2 tm hm
        · exact (ptDispose_heaps k (execTask env o.task s).2).2.2.2
      · exact fresh_sub_sys s o.task s.clock rfl rfl rfl (fun tm hm => hm) rfl ht hl hτ
  | wtRun k =>
    rcases hk : lookupA k s.wtasks with _ | o
    · simp only [runCallback, hk]
      exact ⟨ht, hl⟩
    · have hτ : o.task ≠ t := by simpa [cbTask, hk] using hcb
      simp only [runCallback, hk]
      split
      · refine fresh_sub_sys s o.task s.clock ?_ ?_ ?_ ?_ ?_ ht hl hτ
        · exact (removeTimeout_heaps o.parent o.id (execTask env o.task s).2).1
        · exact (removeTimeout_heaps o.parent o.id (execTask env o.task s).2).2.1
        · exact (removeTimeout_heaps o.parent o.id (execTask env o.task s).2).2.2.1
        · intro tm hm
          have hm2 : tm ∈ (DefaultWorker.removeTimeout o.parent o.id
              (execTask env o.task s).2).timers := hm
          rw [removeTimeout_timers] at hm2
          exact hm2
        · exact (removeTimeout_heaps o.parent o.id (execTask env o.task s).2).2.2.2
      · refine fresh_sub_sys s o.task s.clock ?_ ?_ ?_ ?_ ?_ ht hl hτ
        · exact (removeTimeout_heaps o.parent o.id (execTask env o.task s).2).1
        · exact (removeTimeout_heaps o.parent o.id (execTask env o.task s).2).2.1
        · exact (removeTimeout_heaps o.parent o.id (execTask env o.task s).2).2.2.1
        · intro tm hm
          have hm2 : tm ∈ (DefaultWorker.removeTimeout o.parent o.id
              (execTask env o.task s).2).timers := hm
          rw [removeTimeout_timers] at hm2
          exact hm2
        · exact (removeTimeout_heaps o.parent o.id (execTask env o.task s).2).2.2.2
  | wInitial k p =>
    rcases hk : lookupA k s.wptasks with _ | o
    · simp only [runCallback, hk]
      exact ⟨ht, hl⟩
    · have hτ : o.task ≠ t := by simpa [cbTask, hk] using hcb
      simp only [runCallback, hk]
      split
      · exact fresh_sub_sys s o.task s.clock rfl rfl rfl (fun tm hm => hm) rfl ht hl hτ
      · refine fresh_new_timer s o.task s.clock
          ⟨(execTask env o.task s).2.nextId, (execTask env o.task s).2.clock + p,
            some p, .wptRun k⟩ ?_ ?_ ?_ rfl ht hl hτ
        · intro cb2
          refine cbTask_congr_map ?_ ?_ ?_ cb2
          · intro k2; rfl
          · intro k2; rfl
          · intro k2
            exact lookupA_map_updateA (fun x : WPTask => x.task) k2 k
              (fun x => { x with periodId := some (setInterval (Callback.wptRun k) p (execTask env o.task s).2).1 })
              (fun _ => rfl) s.wptasks
        · intro tm hm
          rcases List.mem_append.mp hm with h | h
          · exact Or.inl h
          · exact Or.inr (List.mem_singleton.mp h)
        · simpa [cbTask, hk] using hτ
  | wptRun k =>
    rcases hk : lookupA k s.wptasks with _ | o
    · simp only [runCallback, hk]
      exact ⟨ht, hl⟩
    · have hτ : o.task ≠ t := by simpa [cbTask, hk] using hcb
      simp only [runCallback, hk]
      split
      · split
        · refine fresh_sub_sys s o.task s.clock ?_ ?_ ?_ ?_ ?_ ht hl hτ
          · exact (removeInterval_heaps o.parent o.periodId _).1
          · exact (removeInterval_heaps o.parent o.periodId _).2.1
          · exact (removeInterval_heaps o.parent o.periodId _).2.2.1
          · intro tm hm
            have hm2 : tm ∈ (DefaultWorker.removeInterval o.parent o.periodId
                (clearTimer (o.periodId.getD 0) (execTask env o.task s).2)).timers := hm
            rw [removeInterval_timers] at hm2
            have hm3 : tm ∈ (execTask env o.task s).2.timers.filter
                (fun u => u.id ≠ o.periodId.getD 0) := hm2
            exact (List.mem_filter.mp hm3).1
          · exact (removeInterval_heaps o.parent o.periodId _).2.2.2
        · exact fresh_sub_sys s o.task s.clock rfl rfl rfl (fun tm hm => hm) rfl ht hl hτ
      · exact fresh_sub_sys s o.task s.clock rfl rfl rfl (fun tm hm => hm) rfl ht hl hτ

/-- Freshness transfers to the pre-dispatch state built by `step` (clock
jump, timer consumed or re-armed). -/
theorem fresh_retimers {s : Sys} {t : Nat} (c : Nat) (l : List Timer)
    (hsub : ∀ tm ∈ l, ∃ u ∈ s.timers, tm.cb = u.cb)
    (hf : FreshTask t s) :
    FreshTask t { s with clock := c, timers := l } ∧
    ∀ cb2, cbTask { s with clock := c, timers := l } cb2 = cbTask s cb2 := by
  have he : ∀ cb2, cbTask { s with clock := c, timers := l } cb2 = cbTask s cb2 :=
    fun cb2 => cbTask_congr_eq rfl rfl rfl cb2
  refine ⟨⟨?_, hf.2⟩, he⟩
  intro tm hm
  rcases hsub tm hm with ⟨u, hu, hcbe⟩
  rw [he, hcbe]
  exact hf.1 u hu

/-- One event-loop step preserves freshness. -/
theorem stepFresh {env : Env} {s s2 : Sys} {t : Nat} (h : step env s = some s2)
    (hf : FreshTask t s) : FreshTask t s2 := by
  unfold step at h
  rcases hp : pickNext s.timers with _ | tm
  · rw [hp] at h; cases h
  · rw [hp] at h
    simp only [Option.some.injEq] at h
    have htm : tm ∈ s.timers := pickNext_mem hp
    have hcb : cbTask s tm.cb ≠ some t := hf.1 tm htm
    rcases hper : tm.period with _ | p <;> simp only [hper] at h <;> subst h
    · have hr := fresh_retimers (max s.clock tm.due)
        (s.timers.filter fun u => u.id ≠ tm.id)
        (fun u2 hm => ⟨u2, (List.mem_filter.mp hm).1, rfl⟩) hf
      exact runCallback_fresh env tm.cb t _ (by rw [hr.2]; exact hcb) hr.1.1 hr.1.2
    · have hr := fresh_retimers (max s.clock tm.due)
        (s.timers.map fun u => if u.id = tm.id then { u with due := tm.due + p } else u)
        (by
          intro u2 hm
          rcases List.mem_map.mp hm with ⟨u, hu, hfe⟩
          refine ⟨u, hu, ?_⟩
          rw [← hfe]
          by_cases hid : u.id = tm.id <;> simp [hid]) hf
      exact runCallback_fresh env tm.cb t _ (by rw [hr.2]; exact hcb) hr.1.1 hr.1.2

/-- Any number of event-loop steps preserves freshness; in particular a fresh
task never executes. -/
theorem runFresh (env : Env) (n : Nat) {s : Sys} {t : Nat} (hf : FreshTask t s) :
    FreshTask t (run env n s) := by
  induction n generalizing s with
  | zero => exact hf
  | succ n ih =>
    cases h : step env s with
    | none => rw [run_of_step_none h]; exact hf
    | some s2 => rw [run_succ_of_step h]; exact ih (stepFresh h hf)

/-! ## Claim C1 -/

/-- Claim C1: the claim states that for every `CallbackDisposable` calling
`dispose()` twice has the same effect as calling it once because the internal
callback reference is cleared after the first call.  The source
(`dispose(): void { this.#callback?.(); }`) never clears `#callback`:
wrapping a closure that increments a counter, two `dispose()` calls run the
cleanup twice (counter 2) while one call runs it once (counter 1), and after
a `dispose()` the callback reference is still present.  This contradicts the
claim and the `Disposable` interface documentation requiring idempotence. -/
theorem C1_dispose_runs_callback_every_time :
    (CallbackDisposable.disposeN (⟨some Nat.succ⟩ : CallbackDisposable Nat) 0 2).2 = 2
    ∧ (CallbackDisposable.disposeN (⟨some Nat.succ⟩ : CallbackDisposable Nat) 0 1).2 = 1
    ∧ ((⟨some Nat.succ⟩ : CallbackDisposable Nat).dispose 0).1.callback.isSome = true :=
  ⟨rfl, rfl, rfl⟩

/-! ## Claim C2 -/

/-- Claim C2: on a worker whose `shutdown` flag is set, `schedule` and
`schedulePeriodically` both return the shared `Disposables.REJECTED` sentinel
and leave the entire system state unchanged (no timer armed, no worker-state
side effect); and a task value fresh for that state never executes however
long the event loop runs afterwards. -/
theorem C2_rejected_after_shutdown (s : Sys) (w tk : Nat)
    (dl idl per : Option Nat) (env : Env) (n : Nat)
    (hsd : (getW w s).shutdown = true) (hfresh : FreshTask tk s) :
    DefaultWorker.schedule w tk dl s = (Disposables.REJECTED, s)
    ∧ DefaultWorker.schedulePeriodically w tk idl per s = (Disposables.REJECTED, s)
    ∧ tk ∉ logTasks (run env n s) := by
  refine ⟨?_, ?_, (runFresh env n hfresh).2⟩
  · simp [DefaultWorker.schedule, hsd]
  · simp [DefaultWorker.schedulePeriodically, hsd]

/-- A worker created on the empty system and immediately shut down. -/
def sC2 : Sys := DefaultWorker.shutdown 0 (DefaultScheduler.createWorker emptySys).2

theorem C2_rejected_after_shutdown_witness :
    (getW 0 sC2).shutdown = true
    ∧ FreshTask 5 sC2
    ∧ DefaultWorker.schedule 0 5 (some 9) sC2 = (Disposables.REJECTED, sC2)
    ∧ DefaultWorker.schedulePeriodically 0 5 (some 2) (some 3) sC2 = (Disposables.REJECTED, sC2)
    ∧ 5 ∉ logTasks (run env0 4 sC2) :=
  have h1 : (getW 0 sC2).shutdown = true := by decide
  have h2 : FreshTask 5 sC2 := by decide
  ⟨h1, h2,
   (C2_rejected_after_shutdown sC2 0 5 (some 9) (some 2) (some 3) env0 4 h1 h2).1,
   (C2_rejected_after_shutdown sC2 0 5 (some 9) (some 2) (some 3) env0 4 h1 h2).2.1,
   (C2_rejected_after_shutdown sC2 0 5 (some 9) (some 2) (some 3) env0 4 h1 h2).2.2⟩

/-! ## Periodic-task scenarios -/

/-- Scheduler-level periodic scenario: `defaultScheduler().schedulePeriodically`
of task 0 with the given initial delay and period, on the empty system. -/
def schedPeriodicSys (d p : Nat) : Sys :=
  (DefaultScheduler.schedulePeriodically 0 (some d) (some p) emptySys).2

/-- Worker-level periodic scenario: a fresh worker (key 0), then
`worker.schedulePeriodically` of task 9 with the given delay and period. -/
def workerPeriodicSys (d p : Nat) : Sys :=
  (DefaultWorker.schedulePeriodically 0 9 (some d) (some p)
    (DefaultScheduler.createWorker emptySys).2).2

theorem schedPeriodicSys_eq (d p : Nat) :
    schedPeriodicSys d p =
      { clock := 0, nextId := 2, nextObj := 1,
        timers := [⟨1, d, none, .schedInitial 0 p⟩],
        ptasks := [(0, ⟨0, some 1, none⟩)],
        wtasks := [], wptasks := [], workers := [], log := [], uncaught := [] } := by
  simp [schedPeriodicSys, DefaultScheduler.schedulePeriodically, setTimeout,
    emptySys, updateA]

theorem workerPeriodicSys_eq (d p : Nat) :
    workerPeriodicSys d p =
      { clock := 0, nextId := 2, nextObj := 2,
        timers := [⟨1, d, none, .wInitial 1 p⟩],
        ptasks := [], wtasks := [],
        wptasks := [(1, ⟨0, 9, none, none⟩)],
        workers := [(0, ⟨false, [1], []⟩)],
        log := [], uncaught := [] } := by
  simp [workerPeriodicSys, DefaultWorker.schedulePeriodically,
    DefaultScheduler.createWorker, setTimeout, emptySys, updateA, getW, lookupA]

/-- First dispatch of the scheduler-level periodic task when the initial
execution returns normally: the task has run once at time `d`, the recurring
timer (identifier 2) is armed with first due time `d + e + p` where `e` is the
initial execution's duration, and `periodId` is recorded on the object. -/
theorem schedPeriodic_run1 (env : Env) (d p : Nat) (h : (env 0).throwsOn 0 = false) :
    run env 1 (schedPeriodicSys d p) =
      { clock := d + (env 0).dur 0, nextId := 3, nextObj := 1,
        timers := [⟨2, d + (env 0).dur 0 + p, some p, .ptRun 0⟩],
        ptasks := [(0, ⟨0, some 1, some 2⟩)],
        wtasks := [], wptasks := [], workers := [],
        log := [(d, 0)], uncaught := [] } := by
  rw [schedPeriodicSys_eq]
  simp [run, step, pickNext, runCallback, execTask, setInterval, updateA,
    lookupA, h, Nat.zero_max]

/-- First dispatch of the scheduler-level periodic task when the initial
execution throws: the exception escapes to the host dispatch (the initial
closure calls the task bare, with no try/catch), no recurring timer is ever
armed, and no timer remains. -/
theorem schedPeriodic_run1_throw (env : Env) (d p : Nat)
    (h : (env 0).throwsOn 0 = true) :
    run env 1 (schedPeriodicSys d p) =
      { clock := d + (env 0).dur 0, nextId := 2, nextObj := 1, timers := [],
        ptasks := [(0, ⟨0, some 1, none⟩)], wtasks := [], wptasks := [],
        workers := [], log := [(d, 0)],
        uncaught := [(d + (env 0).dur 0, 0)] } := by
  rw [schedPeriodicSys_eq]
  simp [run, step, pickNext, runCallback, execTask, raiseUncaught, lookupA, h,
    Nat.zero_max]

/-- Firing times actually produced by the source implementation: the initial
firing at `d`, and the `i`-th recurring firing at `d + e + i * p`, shifted by
the duration `e` of the initial execution because the recurring timer is only
armed after the initial execution returns. -/
def fireTime (d p e : Nat) : Nat → Nat
  | 0 => d
  | i + 1 => d + e + (i + 1) * p

/-- The log of the first `n` firings of the periodic task. -/
def fireLog (d p e n : Nat) : List (Nat × Nat) :=
  (List.range n).map fun i => (fireTime d p e i, 0)

theorem fireLog_succ (d p e n : Nat) :
    fireLog d p e (n + 1) = fireLog d p e n ++ [(fireTime d p e n, 0)] := by
  unfold fireLog
  rw [List.range_succ]
  simp

theorem countP_fireLog (d p e n : Nat) :
    (fireLog d p e n).countP (fun x => x.2 == 0) = n := by
  induction n with
  | zero => rfl
  | succ n ih => rw [fireLog_succ]; simp [List.countP_append, ih]

/-- Tasks that never throw, with an arbitrary duration profile: the `k`-th
execution blocks for `f k`. -/
def envD (f : Nat → Nat) : Env := fun _ => ⟨fun _ => false, f⟩

/-- The virtual clock after the initial firing and `j` recurring firings:
each firing starts at its due time and blocks for its own duration. -/
def c5clock (d p : Nat) (f : Nat → Nat) : Nat → Nat
  | 0 => d + f 0
  | j + 1 => d + f 0 + (j + 1) * p + f (j + 1)

/-- The system state after the initial firing and `j` recurring firings of
the scheduler-level periodic task under the duration profile `f` (`f 0` is
the initial execution's duration, `f k` that of the `k`-th recurring one).
The firing times recorded in the log depend only on `f 0`. -/
def c5state (d p : Nat) (f : Nat → Nat) (j : Nat) : Sys :=
  { clock := c5clock d p f j, nextId := 3, nextObj := 1,
    timers := [⟨2, d + f 0 + (j + 1) * p, some p, .ptRun 0⟩],
    ptasks := [(0, ⟨0, some 1, some 2⟩)],
    wtasks := [], wptasks := [], workers := [],
    log := fireLog d p (f 0) (j + 1), uncaught := [] }

/-- Invariant run of the scheduler-level periodic task under any duration
profile whose recurring executions do not outlast the period: after `1 + j`
dispatches the log holds exactly the firings at the times of `fireTime`
(shifted by the initial duration only) and the recurring timer is armed for
the next one. -/
theorem c5run (d p : Nat) (f : Nat → Nat) (hf : ∀ k, 1 ≤ k → f k ≤ p) :
    ∀ j, run (envD f) (1 + j) (schedPeriodicSys d p) = c5state d p f j
  | 0 => by
    rw [show (1 + 0 : Nat) = 1 from rfl, schedPeriodic_run1 (envD f) d p rfl]
    simp [c5state, c5clock, envD, fireLog, fireTime, List.range_succ]
  | j + 1 => by
    rw [show 1 + (j + 1) = (1 + j) + 1 from rfl, run_add, c5run d p f hf j]
    have hle : c5clock d p f j ≤ d + f 0 + (j + 1) * p := by
      cases j with
      | zero =>
        show d + f 0 ≤ d + f 0 + (0 + 1) * p
        exact Nat.le_add_right _ _
      | succ j2 =>
        show d + f 0 + (j2 + 1) * p + f (j2 + 1) ≤ d + f 0 + (j2 + 1 + 1) * p
        calc d + f 0 + (j2 + 1) * p + f (j2 + 1)
            ≤ d + f 0 + (j2 + 1) * p + p :=
              Nat.add_le_add_left (hf (j2 + 1) (Nat.le_add_left 1 j2)) _
          _ = d + f 0 + (j2 + 1 + 1) * p := by ring
    have h1 : max (c5clock d p f j) (d + f 0 + (j + 1) * p)
        = d + f 0 + (j + 1) * p := Nat.max_eq_right hle
    have h2 : d + f 0 + (j + 1) * p + p = d + f 0 + (j + 1 + 1) * p := by ring
    have h3 : c5clock d p f (j + 1) = d + f 0 + (j + 1) * p + f (j + 1) := rfl
    simp [c5state, run, step, pickNext, runCallback, execTask,
      lookupA, countP_fireLog, envD, fireLog_succ, fireTime, h1, h2, h3]

theorem max_self_add (a b : Nat) : max a (a + b) = a + b :=
  Nat.max_eq_right (Nat.le_add_right a b)

/-- First dispatch of the worker-level periodic task when the initial
execution returns normally: the recurring timer (identifier 2) is armed and
pushed into the worker's `#intervals`, `periodId` is recorded on the wrapper —
but the fired initial timer's identifier 1 is still in `#timeouts`, and
`initialId` was never assigned. -/
theorem workerPeriodic_run1 (env : Env) (d p : Nat) (h : (env 9).throwsOn 0 = false) :
    run env 1 (workerPeriodicSys d p) =
      { clock := d + (env 9).dur 0, nextId := 3, nextObj := 2,
        timers := [⟨2, d + (env 9).dur 0 + p, some p, .wptRun 1⟩],
        ptasks := [], wtasks := [],
        wptasks := [(1, ⟨0, 9, none, some 2⟩)],
        workers := [(0, ⟨false, [1], [2]⟩)],
        log := [(d, 9)], uncaught := [] } := by
  rw [workerPeriodicSys_eq]
  simp [run, step, pickNext, runCallback, execTask, setInterval, updateA,
    lookupA, h, Nat.zero_max]

/-- First dispatch of the worker-level periodic task when the initial
execution throws: the exception escapes, the recurring phase is never armed,
and the stale identifier 1 stays in the worker's `#timeouts`. -/
theorem workerPeriodic_run1_throw (env : Env) (d p : Nat)
    (h : (env 9).throwsOn 0 = true) :
    run env 1 (workerPeriodicSys d p) =
      { clock := d + (env 9).dur 0, nextId := 2, nextObj := 2, timers := [],
        ptasks := [], wtasks := [],
        wptasks := [(1, ⟨0, 9, none, none⟩)],
        workers := [(0, ⟨false, [1], []⟩)],
        log := [(d, 9)], uncaught := [(d + (env 9).dur 0, 9)] } := by
  rw [workerPeriodicSys_eq]
  simp [run, step, pickNext, runCallback, execTask, raiseUncaught, lookupA, h,
    Nat.zero_max]

/-- Two dispatches of the scheduler-level periodic task whose second firing
throws: the error is swallowed (`uncaught` empty), the whole task is torn
down (`PeriodicTask.dispose` cancels both identifiers), and the state is
final. -/
theorem schedPeriodic_run2_throwAt1 (d p : Nat) :
    run (envThrowAt 1) 2 (schedPeriodicSys d p) =
      { clock := d + p, nextId := 3, nextObj := 1, timers := [],
        ptasks := [(0, ⟨0, some 1, some 2⟩)],
        wtasks := [], wptasks := [], workers := [],
        log := [(d, 0), (d + p, 0)], uncaught := [] } := by
  rw [show (2 : Nat) = 1 + 1 from rfl, run_add,
    schedPeriodic_run1 (envThrowAt 1) d p rfl]
  simp [run, step, pickNext, runCallback, execTask, PeriodicTask.dispose,
    clearTimer, lookupA, envThrowAt, isTruthy, max_self_add]

/-- Two dispatches of the worker-level periodic task whose second firing
throws: the error is swallowed, the recurring timer is cancelled and removed
from `#intervals` — but the stale initial identifier 1 remains in
`#timeouts`. -/
theorem workerPeriodic_run2_throwAt1 (d p : Nat) :
    run (envThrowAt 1) 2 (workerPeriodicSys d p) =
      { clock := d + p, nextId := 3, nextObj := 2, timers := [],
        ptasks := [], wtasks := [],
        wptasks := [(1, ⟨0, 9, none, some 2⟩)],
        workers := [(0, ⟨false, [1], []⟩)],
        log := [(d, 9), (d + p, 9)], uncaught := [] } := by
  rw [show (2 : Nat) = 1 + 1 from rfl, run_add,
    workerPeriodic_run1 (envThrowAt 1) d p rfl]
  simp [run, step, pickNext, runCallback, execTask,
    DefaultWorker.removeInterval, clearTimer, updateA, lookupA, envThrowAt,
    isTruthy, max_self_add]

/-- Once a run has reached a state with no armed timers, further dispatches
change nothing. -/
theorem run_absorb {env : Env} {s X : Sys} {m : Nat} (h : run env m s = X)
    (ht : X.timers = []) (n : Nat) : run env (m + n) s = X := by
  rw [run_add, h, run_of_timers_nil ht n]

/-! ## Claim C3 -/

/-- Claim C3, counterexample: the claim says an error raised during the
initial delayed firing is caught and swallowed at this layer.  In the source
the initial closure invokes the task bare (`task();`), so at initial delay 5,
period 3 and a task that always throws, the exception reaches the host
dispatch: the uncaught list is `[(5, 0)]`, not empty. -/
theorem C3_initial_error_escapes_counterexample :
    (run envThrowAll 1 (schedPeriodicSys 5 3)).uncaught = [(5, 0)]
    ∧ ¬ ((run envThrowAll 1 (schedPeriodicSys 5 3)).uncaught = []) := by
  constructor <;> decide

/-- Claim C3, amended: for both the scheduler-level and the worker-level
periodic task, an error during a recurring firing is caught and swallowed and
permanently stops the task (teardown, no further firing however long the loop
runs); an error during the initial delayed firing also permanently stops the
task (the recurring phase is never armed) but the error escapes to the host
dispatch instead of being swallowed. -/
theorem C3_periodic_error_amended (d p n : Nat) :
    ((run envThrowAll (1 + n) (schedPeriodicSys d p)).uncaught = [(d, 0)]
      ∧ (run envThrowAll (1 + n) (schedPeriodicSys d p)).log = [(d, 0)]
      ∧ (run envThrowAll (1 + n) (schedPeriodicSys d p)).timers = [])
    ∧ ((run (envThrowAt 1) (2 + n) (schedPeriodicSys d p)).uncaught = []
      ∧ (run (envThrowAt 1) (2 + n) (schedPeriodicSys d p)).log = [(d, 0), (d + p, 0)]
      ∧ (run (envThrowAt 1) (2 + n) (schedPeriodicSys d p)).timers = [])
    ∧ ((run envThrowAll (1 + n) (workerPeriodicSys d p)).uncaught = [(d, 9)]
      ∧ (run envThrowAll (1 + n) (workerPeriodicSys d p)).log = [(d, 9)]
      ∧ (run envThrowAll (1 + n) (workerPeriodicSys d p)).timers = [])
    ∧ ((run (envThrowAt 1) (2 + n) (workerPeriodicSys d p)).uncaught = []
      ∧ (run (envThrowAt 1) (2 + n) (workerPeriodicSys d p)).log = [(d, 9), (d + p, 9)]
      ∧ (run (envThrowAt 1) (2 + n) (workerPeriodicSys d p)).timers = []) := by
  have hA := run_absorb (schedPeriodic_run1_throw envThrowAll d p rfl) rfl n
  have hB := run_absorb (schedPeriodic_run2_throwAt1 d p) rfl n
  have hC := run_absorb (workerPeriodic_run1_throw envThrowAll d p rfl) rfl n
  have hD := run_absorb (workerPeriodic_run2_throwAt1 d p) rfl n
  refine ⟨⟨?_, ?_, ?_⟩, ⟨?_, ?_, ?_⟩, ⟨?_, ?_, ?_⟩, ⟨?_, ?_, ?_⟩⟩ <;>
    simp [hA, hB, hC, hD, envThrowAll]

/-! ## Claim C4 -/

/-- Claim C4, counterexample: the claim says the collections contain exactly
the identifiers of currently armed timers, entries being removed the moment a
timer fires to completion.  After the initial firing of a worker periodic
task (delay 5, period 3), identifier 1 is still in `#timeouts` although timer
1 fired to completion and only timer 2 is armed. -/
theorem C4_tracking_not_exact_counterexample :
    1 ∈ (getW 0 (run env0 1 (workerPeriodicSys 5 3))).timeouts
    ∧ (∀ tm ∈ (run env0 1 (workerPeriodicSys 5 3)).timers, tm.id ≠ 1) := by
  constructor <;> decide

/-- Claim C4, amended: the collections contain the armed owned identifiers,
but not exactly: the worker periodic task's initial timer identifier is never
removed when that timer fires to completion, so a stale entry remains; after
a throwing second firing the interval identifier is removed at once, yet the
stale initial identifier keeps `#timeouts` non-empty. -/
theorem C4_tracking_amended (d p n : Nat) :
    (getW 0 (run env0 1 (workerPeriodicSys d p))).timeouts = [1]
    ∧ (getW 0 (run env0 1 (workerPeriodicSys d p))).intervals = [2]
    ∧ (run env0 1 (workerPeriodicSys d p)).timers = [⟨2, d + p, some p, .wptRun 1⟩]
    ∧ (getW 0 (run (envThrowAt 1) (2 + n) (workerPeriodicSys d p))).intervals = []
    ∧ (getW 0 (run (envThrowAt 1) (2 + n) (workerPeriodicSys d p))).timeouts = [1]
    ∧ (run (envThrowAt 1) (2 + n) (workerPeriodicSys d p)).timers = [] := by
  have hA := workerPeriodic_run1 env0 d p rfl
  have hD := run_absorb (workerPeriodic_run2_throwAt1 d p) rfl n
  refine ⟨?_, ?_, ?_, ?_, ?_, ?_⟩
  · rw [hA]; simp [getW, lookupA]
  · rw [hA]; simp [getW, lookupA]
  · rw [hA]; simp [env0]
  · rw [hD]; simp [getW, lookupA]
  · rw [hD]; simp [getW, lookupA]
  · rw [hD]

/-! ## Claim C5 -/

/-- Claim C5, counterexample: with `initialDelay = 10`, `period = 50` and an
initial execution lasting 7, the second firing happens at virtual time 67,
not at the claimed `10 + (2 - 1) * 50 = 60`: the recurring timer is armed
only after the initial execution returns, so every later firing is shifted by
the initial execution's duration. -/
theorem C5_fixed_rate_counterexample :
    (run (envDur 7) 2 (schedPeriodicSys 10 50)).log = [(10, 0), (67, 0)]
    ∧ ¬ ((run (envDur 7) 2 (schedPeriodicSys 10 50)).log
          = [(10, 0), (10 + (2 - 1) * 50, 0)]) := by
  constructor <;> decide

/-- Claim C5, amended: the initial firing is at `d`; the Nth firing for N ≥ 2
is at `d + e + (N - 1) * p` where `e` is the duration of the initial firing's
execution — fixed rate relative to the moment the recurring timer is armed
(end of the first execution), not the schedule time.  The firing times are
quantified over an arbitrary duration profile `f` (with `e = f 0`) and do not
depend on the later firings' durations, provided each recurring execution
fits within the period (`f k ≤ p` for `k ≥ 1`).  Only when the initial
execution is instantaneous (`f 0 = 0`) does the claimed schedule
`d + (N - 1) * p` hold. -/
theorem C5_fixed_rate_amended (d p j : Nat) (f : Nat → Nat)
    (hf : ∀ k, 1 ≤ k → f k ≤ p) :
    (run (envD f) (1 + j) (schedPeriodicSys d p)).log = fireLog d p (f 0) (j + 1)
    ∧ (run (envD f) (1 + j) (schedPeriodicSys d p)).uncaught = []
    ∧ fireTime d p (f 0) 0 = d
    ∧ (∀ i, fireTime d p (f 0) (i + 1) = d + f 0 + (i + 1) * p)
    ∧ (∀ i, fireTime d p 0 i = d + i * p) := by
  refine ⟨?_, ?_, rfl, fun i => rfl, ?_⟩
  · rw [c5run d p f hf]; rfl
  · rw [c5run d p f hf]; rfl
  · intro i
    cases i with
    | zero => simp [fireTime]
    | succ i => simp [fireTime]

theorem C5_fixed_rate_amended_witness :
    (∀ k : Nat, 1 ≤ k → (7 : Nat) ≤ 50)
    ∧ (run (envD (fun _ => 7)) (1 + 2) (schedPeriodicSys 10 50)).log
        = fireLog 10 50 7 3
    ∧ fireLog 10 50 7 3 = [(10, 0), (67, 0), (117, 0)]
    ∧ fireTime 10 50 7 (1 + 1) = 10 + 7 + (1 + 1) * 50 :=
  have hf : ∀ k : Nat, 1 ≤ k → (7 : Nat) ≤ 50 := fun _ _ => by decide
  ⟨hf, (C5_fixed_rate_amended 10 50 2 (fun _ => 7) hf).1, by decide,
   (C5_fixed_rate_amended 10 50 2 (fun _ => 7) hf).2.2.2.1 1⟩

/-! ## Claim C6 -/

/-- Claim C6: the claim says the returned `Disposable` cancels whichever
phase is active for every periodic task.  This holds for the scheduler-level
`PeriodicTask` (disposing while `Pending` cancels the one-shot, so the task
never runs; disposing while `Recurring` cancels the recurring timer, so no
further firing occurs), but fails for the worker-level task:
`DefaultWorker.schedulePeriodically` never assigns `workerTask.initialId`, so
disposing while `Pending` finds `initialId` undefined and `periodId` null,
cancels nothing at all, and the task still fires at its initial delay. -/
theorem C6_dispose_phase :
    (PeriodicTask.dispose 0 (schedPeriodicSys 5 3)).timers = []
    ∧ (∀ n, (run env0 n (PeriodicTask.dispose 0 (schedPeriodicSys 5 3))).log = [])
    ∧ (PeriodicTask.dispose 0 (run env0 1 (schedPeriodicSys 5 3))).timers = []
    ∧ (∀ n, (run env0 n
        (PeriodicTask.dispose 0 (run env0 1 (schedPeriodicSys 5 3)))).log = [(5, 0)])
    ∧ (WorkerPeriodicTask.dispose 1 (run env0 1 (workerPeriodicSys 5 3))).timers = []
    ∧ (∀ n, (run env0 n
        (WorkerPeriodicTask.dispose 1 (run env0 1 (workerPeriodicSys 5 3)))).log = [(5, 9)])
    ∧ WorkerPeriodicTask.dispose 1 (workerPeriodicSys 5 3) = workerPeriodicSys 5 3
    ∧ (run env0 1 (WorkerPeriodicTask.dispose 1 (workerPeriodicSys 5 3))).log = [(5, 9)]
    ∧ (run env0 1 (WorkerPeriodicTask.dispose 1 (workerPeriodicSys 5 3))).timers ≠ [] := by
  refine ⟨by decide, ?_, by decide, ?_, by decide, ?_, by decide, by decide, by decide⟩
  · intro n
    rw [run_of_timers_nil (by decide) n]
    decide
  · intro n
    rw [run_of_timers_nil (by decide) n]
    decide
  · intro n
    rw [run_of_timers_nil (by decide) n]
    decide

/-! ## Lemmas about `shutdown` -/

theorem foldl_clearTimer_fields (l : List Nat) (s : Sys) :
    (l.foldl (fun acc i => clearTimer i acc) s).workers = s.workers
    ∧ (l.foldl (fun acc i => clearTimer i acc) s).ptasks = s.ptasks
    ∧ (l.foldl (fun acc i => clearTimer i acc) s).wtasks = s.wtasks
    ∧ (l.foldl (fun acc i => clearTimer i acc) s).wptasks = s.wptasks
    ∧ (l.foldl (fun acc i => clearTimer i acc) s).log = s.log
    ∧ (l.foldl (fun acc i => clearTimer i acc) s).uncaught = s.uncaught := by
  induction l generalizing s with
  | nil => exact ⟨rfl, rfl, rfl, rfl, rfl, rfl⟩
  | cons a r ih =>
    rw [List.foldl_cons]
    exact ih (clearTimer a s)

theorem foldl_clearTimer_mem (l : List Nat) (s : Sys) (tm : Timer) :
    tm ∈ (l.foldl (fun acc i => clearTimer i acc) s).timers ↔
      tm ∈ s.timers ∧ tm.id ∉ l := by
  induction l generalizing s with
  | nil => simp
  | cons a r ih =>
    rw [List.foldl_cons, ih]
    simp only [clearTimer, List.mem_filter, List.mem_cons, not_or]
    constructor
    · rintro ⟨⟨h1, h2⟩, h3⟩
      exact ⟨h1, by simpa using h2, h3⟩
    · rintro ⟨h1, h2, h3⟩
      exact ⟨⟨h1, by simpa using h2⟩, h3⟩

theorem updateA_updateA {α : Type} (k : Nat) (f g : α → α) (l : List (Nat × α)) :
    updateA k f (updateA k g l) = updateA k (fun v => f (g v)) l := by
  induction l with
  | nil => rfl
  | cons e r ih =>
    simp only [updateA, List.map_cons] at ih ⊢
    by_cases he : e.1 = k <;> simp [he, ih]

theorem updateA_id {α : Type} (k : Nat) (f : α → α) (l : List (Nat × α))
    (h : ∀ e ∈ l, e.1 = k → f e.2 = e.2) : updateA k f l = l := by
  induction l with
  | nil => rfl
  | cons e r ih =>
    simp only [updateA, List.map_cons] at ih ⊢
    rw [ih fun e2 h2 hk => h e2 (List.mem_cons_of_mem _ h2) hk]
    by_cases he : e.1 = k
    · rw [if_pos he, h e (List.mem_cons_self e r) he]
    · rw [if_neg he]

theorem updateA_entry_val {α : Type} {k : Nat} {f : α → α} {l : List (Nat × α)}
    {e : Nat × α} (he : e ∈ updateA k f l) (hk : e.1 = k) :
    ∃ e0 ∈ l, e0.1 = k ∧ e.2 = f e0.2 := by
  rcases List.mem_map.mp he with ⟨e0, he0, hfe⟩
  by_cases h : e0.1 = k
  · exact ⟨e0, he0, h, by rw [← hfe]; simp [h]⟩
  · rw [← hfe] at hk
    rw [if_neg h] at hk
    exact absurd hk h

theorem shutdown_workers_eq (w : Nat) (s : Sys) :
    (DefaultWorker.shutdown w s).workers =
      updateA w (fun v => { v with shutdown := true, intervals := ([] : List Nat), timeouts := ([] : List Nat) })
        s.workers := by
  simp only [DefaultWorker.shutdown]
  rw [(foldl_clearTimer_fields _ _).1, (foldl_clearTimer_fields _ _).1,
    updateA_updateA]

theorem getW_shutdown {w : Nat} {s : Sys} {ws : WorkerState}
    (hw : lookupA w s.workers = some ws) :
    getW w (DefaultWorker.shutdown w s) = ⟨true, [], []⟩ := by
  unfold getW
  rw [shutdown_workers_eq, lookupA_updateA]
  simp [hw]

theorem shutdown_heaps (w : Nat) (s : Sys) :
    (DefaultWorker.shutdown w s).ptasks = s.ptasks
    ∧ (DefaultWorker.shutdown w s).wtasks = s.wtasks
    ∧ (DefaultWorker.shutdown w s).wptasks = s.wptasks
    ∧ (DefaultWorker.shutdown w s).log = s.log
    ∧ (DefaultWorker.shutdown w s).uncaught = s.uncaught := by
  simp only [DefaultWorker.shutdown]
  refine ⟨?_, ?_, ?_, ?_, ?_⟩
  · rw [(foldl_clearTimer_fields _ _).2.1, (foldl_clearTimer_fields _ _).2.1]
  · rw [(foldl_clearTimer_fields _ _).2.2.1, (foldl_clearTimer_fields _ _).2.2.1]
  · rw [(foldl_clearTimer_fields _ _).2.2.2.1, (foldl_clearTimer_fields _ _).2.2.2.1]
  · rw [(foldl_clearTimer_fields _ _).2.2.2.2.1, (foldl_clearTimer_fields _ _).2.2.2.2.1]
  · rw [(foldl_clearTimer_fields _ _).2.2.2.2.2, (foldl_clearTimer_fields _ _).2.2.2.2.2]

theorem shutdown_timers_mem {w : Nat} {s : Sys} {tm : Timer} :
    tm ∈ (DefaultWorker.shutdown w s).timers ↔
      tm ∈ s.timers ∧ tm.id ∉ (getW w s).intervals ∧ tm.id ∉ (getW w s).timeouts := by
  simp only [DefaultWorker.shutdown]
  rw [foldl_clearTimer_mem, foldl_clearTimer_mem]
  tauto

theorem shutdown_workers_val (w : Nat) (s : Sys) :
    ∀ e ∈ (DefaultWorker.shutdown w s).workers, e.1 = w →
      e.2 = (⟨true, [], []⟩ : WorkerState) := by
  intro e he hk
  rw [shutdown_workers_eq] at he
  rcases updateA_entry_val he hk with ⟨e0, _, _, hv⟩
  rw [hv]

/-- A second `shutdown()` on a worker already recorded as shut down with
empty collections changes nothing. -/
theorem shutdown_of_clean {w : Nat} {s : Sys}
    (hg : getW w s = ⟨true, [], []⟩)
    (hval : ∀ e ∈ s.workers, e.1 = w → e.2 = (⟨true, [], []⟩ : WorkerState)) :
    DefaultWorker.shutdown w s = s := by
  simp only [DefaultWorker.shutdown, hg, List.foldl_nil]
  rw [updateA_updateA]
  rw [updateA_id _ _ _ (fun e he hk => by rw [hval e he hk])]

theorem shutdown_idem {w : Nat} {s : Sys} {ws : WorkerState}
    (hw : lookupA w s.workers = some ws) :
    DefaultWorker.shutdown w (DefaultWorker.shutdown w s) =
      DefaultWorker.shutdown w s :=
  shutdown_of_clean (getW_shutdown hw) (shutdown_workers_val w s)

theorem ownedByB_shutdown (w w2 : Nat) (s : Sys) (cb : Callback) :
    ownedByB (DefaultWorker.shutdown w s) w2 cb = ownedByB s w2 cb := by
  cases cb <;>
    simp [ownedByB, (shutdown_heaps w s).2.1, (shutdown_heaps w s).2.2.1]

theorem cbTask_shutdown (w : Nat) (s : Sys) (cb : Callback) :
    cbTask (DefaultWorker.shutdown w s) cb = cbTask s cb :=
  cbTask_congr_eq (shutdown_heaps w s).1 (shutdown_heaps w s).2.1
    (shutdown_heaps w s).2.2.1 cb

/-! ## Claim C7 -/

/-- Claim C7: on a worker satisfying the bookkeeping invariant (every armed
timer it owns is registered in its collections), `shutdown()` records the
worker as shut down with both collections empty, leaves no armed timer owned
by the worker, is a no-op when called a second time, and a task that had
executed never and was referenced only through timers owned by this worker
never executes afterwards, however long the event loop runs. -/
theorem C7_shutdown (s : Sys) (w t : Nat) (ws : WorkerState) (env : Env)
    (hw : lookupA w s.workers = some ws)
    (hInv : ownedInv w s)
    (hOwn : ∀ tm ∈ s.timers, cbTask s tm.cb = some t → ownedByB s w tm.cb = true)
    (hLog : t ∉ logTasks s) :
    getW w (DefaultWorker.shutdown w s) = ⟨true, [], []⟩
    ∧ (∀ tm ∈ (DefaultWorker.shutdown w s).timers, ownedByB s w tm.cb = false)
    ∧ DefaultWorker.shutdown w (DefaultWorker.shutdown w s) = DefaultWorker.shutdown w s
    ∧ (∀ n, t ∉ logTasks (run env n (DefaultWorker.shutdown w s))) := by
  have hdead : ∀ tm ∈ (DefaultWorker.shutdown w s).timers, ownedByB s w tm.cb = false := by
    intro tm hm
    rcases shutdown_timers_mem.mp hm with ⟨hms, hni, hnt⟩
    rcases Bool.eq_false_or_eq_true (ownedByB s w tm.cb) with hb | hb
    · exfalso
      rcases List.mem_append.mp (hInv tm hms hb) with h | h
      · exact hnt h
      · exact hni h
    · exact hb
  have hfresh : FreshTask t (DefaultWorker.shutdown w s) := by
    constructor
    · intro tm hm
      rw [cbTask_shutdown]
      intro hc
      have hb := hOwn tm (shutdown_timers_mem.mp hm).1 hc
      rw [hdead tm hm] at hb
      cases hb
    · rw [show logTasks (DefaultWorker.shutdown w s) = logTasks s by
        simp [logTasks, (shutdown_heaps w s).2.2.2.1]]
      exact hLog
  exact ⟨getW_shutdown hw, hdead, shutdown_idem hw,
    fun n => (runFresh env n hfresh).2⟩

/-- Worker 0 with a pending one-shot task 7 (delay 100) and a pending
periodic task 8 (initial delay 50, period 10). -/
def sW7 : Sys :=
  (DefaultWorker.schedulePeriodically 0 8 (some 50) (some 10)
    (DefaultWorker.schedule 0 7 (some 100) (DefaultScheduler.createWorker emptySys).2).2).2

theorem C7_shutdown_witness :
    lookupA 0 sW7.workers = some ⟨false, [1, 2], []⟩
    ∧ ownedInv 0 sW7
    ∧ (7 : Nat) ∉ logTasks sW7
    ∧ getW 0 (DefaultWorker.shutdown 0 sW7) = ⟨true, [], []⟩
    ∧ DefaultWorker.shutdown 0 (DefaultWorker.shutdown 0 sW7) = DefaultWorker.shutdown 0 sW7
    ∧ (7 : Nat) ∉ logTasks (run env0 6 (DefaultWorker.shutdown 0 sW7)) :=
  have hw : lookupA 0 sW7.workers = some ⟨false, [1, 2], []⟩ := by decide
  have hInv : ownedInv 0 sW7 := by decide
  have hOwn : ∀ tm ∈ sW7.timers, cbTask sW7 tm.cb = some 7 →
      ownedByB sW7 0 tm.cb = true := by decide
  have hLog : (7 : Nat) ∉ logTasks sW7 := by decide
  ⟨hw, hInv, hLog,
   (C7_shutdown sW7 0 7 ⟨false, [1, 2], []⟩ env0 hw hInv hOwn hLog).1,
   (C7_shutdown sW7 0 7 ⟨false, [1, 2], []⟩ env0 hw hInv hOwn hLog).2.2.1,
   (C7_shutdown sW7 0 7 ⟨false, [1, 2], []⟩ env0 hw hInv hOwn hLog).2.2.2 6⟩

/-! ## Claim C8 -/

theorem getW_removeTimeout {i : Nat} (hi : i ≠ 0) (w : Nat) (s : Sys) :
    getW w (DefaultWorker.removeTimeout w (some i) s) =
      { getW w s with timeouts := (getW w s).timeouts.erase i } := by
  unfold DefaultWorker.removeTimeout
  rw [if_pos (by simp [isTruthy, hi])]
  unfold getW
  rw [lookupA_updateA, if_pos rfl]
  cases hl : lookupA w s.workers with
  | none => simp
  | some v => simp

theorem getW_removeTimeout_rest (w : Nat) (i : Option Nat) (s : Sys) :
    (getW w (DefaultWorker.removeTimeout w i s)).intervals = (getW w s).intervals
    ∧ (getW w (DefaultWorker.removeTimeout w i s)).shutdown = (getW w s).shutdown := by
  unfold DefaultWorker.removeTimeout
  split
  · unfold getW
    rw [lookupA_updateA, if_pos rfl]
    cases lookupA w s.workers <;> exact ⟨rfl, rfl⟩
  · exact ⟨rfl, rfl⟩

/-- Claim C8: when a worker-scoped one-shot task's timer fires,
`WorkerTask.run` executes the task closure (it is appended to the execution
log) and then removes the task's timer identifier from the worker's
`#timeouts` collection, leaving `#intervals` and the `shutdown` flag alone —
and this holds for every task environment, whether the closure returns
normally or throws. -/
theorem C8_workerTask_run (s : Sys) (k i : Nat) (o : WTask) (env : Env)
    (hk : lookupA k s.wtasks = some o) (hid : o.id = some i) (hi : i ≠ 0) :
    (runCallback env (.wtRun k) s).log = s.log ++ [(s.clock, o.task)]
    ∧ (getW o.parent (runCallback env (.wtRun k) s)).timeouts
        = (getW o.parent s).timeouts.erase i
    ∧ (getW o.parent (runCallback env (.wtRun k) s)).intervals
        = (getW o.parent s).intervals
    ∧ (getW o.parent (runCallback env (.wtRun k) s)).shutdown
        = (getW o.parent s).shutdown := by
  simp only [runCallback, hk, hid]
  have hgw := getW_removeTimeout hi o.parent (execTask env o.task s).2
  split <;>
    exact ⟨(removeTimeout_heaps o.parent (some i) (execTask env o.task s).2).2.2.2,
      congrArg WorkerState.timeouts hgw,
      (getW_removeTimeout_rest o.parent (some i) (execTask env o.task s).2).1,
      (getW_removeTimeout_rest o.parent (some i) (execTask env o.task s).2).2⟩

/-- Worker 0 with one-shot task 7 scheduled at delay 4 (timer identifier 1). -/
def sW8 : Sys :=
  (DefaultWorker.schedule 0 7 (some 4) (DefaultScheduler.createWorker emptySys).2).2

theorem C8_workerTask_run_witness :
    lookupA 1 sW8.wtasks = some ⟨0, 7, some 1⟩
    ∧ (runCallback envThrowAll (.wtRun 1) sW8).log = sW8.log ++ [(sW8.clock, 7)]
    ∧ (getW 0 (runCallback envThrowAll (.wtRun 1) sW8)).timeouts
        = (getW 0 sW8).timeouts.erase 1 :=
  have hk : lookupA 1 sW8.wtasks = some ⟨0, 7, some 1⟩ := by decide
  ⟨hk,
   (C8_workerTask_run sW8 1 1 ⟨0, 7, some 1⟩ envThrowAll hk rfl (by decide)).1,
   (C8_workerTask_run sW8 1 1 ⟨0, 7, some 1⟩ envThrowAll hk rfl (by decide)).2.1⟩

/-! ## Claim C9 -/

/-- Claim C9: the zero-identifier pitfall.  `removeTimeout`/`removeInterval`
leave the state entirely unchanged when called with `undefined` or with
identifier 0 — even when 0 is a member of the collection — and
`WorkerPeriodicTask.dispose` on a wrapper whose `initialId` is 0 (and whose
recurring phase has not started) cancels and de-registers nothing: a
zero-valued identifier is mistaken for "absent" by the `if (id)` truthiness
checks. -/
theorem C9_zero_identifier_pitfall (s : Sys) (w k : Nat) (o : WPTask)
    (hk : lookupA k s.wptasks = some o) (h0 : o.initialId = some 0)
    (hp : o.periodId = none) :
    DefaultWorker.removeTimeout w none s = s
    ∧ DefaultWorker.removeTimeout w (some 0) s = s
    ∧ DefaultWorker.removeInterval w none s = s
    ∧ DefaultWorker.removeInterval w (some 0) s = s
    ∧ WorkerPeriodicTask.dispose k s = s := by
  refine ⟨rfl, ?_, rfl, ?_, ?_⟩
  · simp [DefaultWorker.removeTimeout, isTruthy]
  · simp [DefaultWorker.removeInterval, isTruthy]
  · simp [WorkerPeriodicTask.dispose, hk, h0, hp, isTruthy]

/-- A state where timer identifier 0 is armed, is a member of worker 0's
`#timeouts`, and is the `initialId` of the pending worker periodic task 3. -/
def sC9 : Sys :=
  { clock := 0, nextId := 1, nextObj := 4,
    timers := [⟨0, 5, none, .wInitial 3 2⟩],
    ptasks := [], wtasks := [],
    wptasks := [(3, ⟨0, 9, some 0, none⟩)],
    workers := [(0, ⟨false, [0], []⟩)],
    log := [], uncaught := [] }

theorem C9_zero_identifier_pitfall_witness :
    (0 : Nat) ∈ (getW 0 sC9).timeouts
    ∧ lookupA 3 sC9.wptasks = some ⟨0, 9, some 0, none⟩
    ∧ DefaultWorker.removeTimeout 0 (some 0) sC9 = sC9
    ∧ DefaultWorker.removeInterval 0 (some 0) sC9 = sC9
    ∧ WorkerPeriodicTask.dispose 3 sC9 = sC9 :=
  have hk : lookupA 3 sC9.wptasks = some ⟨0, 9, some 0, none⟩ := by decide
  ⟨by decide, hk,
   (C9_zero_identifier_pitfall sC9 0 3 ⟨0, 9, some 0, none⟩ hk rfl rfl).2.1,
   (C9_zero_identifier_pitfall sC9 0 3 ⟨0, 9, some 0, none⟩ hk rfl rfl).2.2.2.1,
   (C9_zero_identifier_pitfall sC9 0 3 ⟨0, 9, some 0, none⟩ hk rfl rfl).2.2.2.2⟩

/-! ## Claim C10 -/

theorem getW_clearTimer (w i : Nat) (s : Sys) :
    getW w (clearTimer i s) = getW w s := rfl

theorem getW_clearTimerOpt (w : Nat) (i : Option Nat) (s : Sys) :
    getW w (clearTimerOpt i s) = getW w s := by
  cases i <;> rfl

theorem getW_removeTimeout_clean {w : Nat} {s : Sys}
    (hgs : getW w s = ⟨true, [], []⟩) (i : Option Nat) :
    getW w (DefaultWorker.removeTimeout w i s) = ⟨true, [], []⟩ := by
  unfold DefaultWorker.removeTimeout
  split
  · unfold getW
    rw [lookupA_updateA, if_pos rfl]
    unfold getW at hgs
    cases hl : lookupA w s.workers with
    | none => rw [hl] at hgs; exact absurd hgs (by decide)
    | some v =>
      rw [hl] at hgs
      simp only [Option.getD_some] at hgs
      simp [hgs]
  · exact hgs

theorem getW_removeInterval_clean {w : Nat} {s : Sys}
    (hgs : getW w s = ⟨true, [], []⟩) (i : Option Nat) :
    getW w (DefaultWorker.removeInterval w i s) = ⟨true, [], []⟩ := by
  unfold DefaultWorker.removeInterval
  split
  · unfold getW
    rw [lookupA_updateA, if_pos rfl]
    unfold getW at hgs
    cases hl : lookupA w s.workers with
    | none => rw [hl] at hgs; exact absurd hgs (by decide)
    | some v =>
      rw [hl] at hgs
      simp only [Option.getD_some] at hgs
      simp [hgs]
  · exact hgs

theorem removeTimeout_log_uncaught (w : Nat) (i : Option Nat) (s : Sys) :
    (DefaultWorker.removeTimeout w i s).log = s.log
    ∧ (DefaultWorker.removeTimeout w i s).uncaught = s.uncaught := by
  unfold DefaultWorker.removeTimeout
  split <;> exact ⟨rfl, rfl⟩

theorem removeInterval_log_uncaught (w : Nat) (i : Option Nat) (s : Sys) :
    (DefaultWorker.removeInterval w i s).log = s.log
    ∧ (DefaultWorker.removeInterval w i s).uncaught = s.uncaught := by
  unfold DefaultWorker.removeInterval
  split <;> exact ⟨rfl, rfl⟩

/-- Claim C10: once the owning worker is shut down (flag true, both
collections empty), calling `dispose()` on any task handle obtained from it
leaves the worker's record unchanged — the flag stays true and the
collections stay empty, since erasing an absent identifier is a no-op — and
produces no execution or exception. -/
theorem C10_dispose_after_shutdown (s : Sys) (w kt kp : Nat) (ot : WTask)
    (op : WPTask) (hws : getW w s = ⟨true, [], []⟩)
    (ht : lookupA kt s.wtasks = some ot) (htp : ot.parent = w)
    (hp : lookupA kp s.wptasks = some op) (hpp : op.parent = w) :
    getW w (WorkerTask.dispose kt s) = ⟨true, [], []⟩
    ∧ (WorkerTask.dispose kt s).log = s.log
    ∧ (WorkerTask.dispose kt s).uncaught = s.uncaught
    ∧ getW w (WorkerPeriodicTask.dispose kp s) = ⟨true, [], []⟩
    ∧ (WorkerPeriodicTask.dispose kp s).log = s.log
    ∧ (WorkerPeriodicTask.dispose kp s).uncaught = s.uncaught := by
  have hwt : ∀ g : Sys → Prop,
      g (DefaultWorker.removeTimeout w ot.id (clearTimerOpt ot.id s)) →
      g (WorkerTask.dispose kt s) := by
    intro g hg
    simp only [WorkerTask.dispose, ht, htp]
    exact hg
  have hg1 : getW w (clearTimerOpt ot.id s) = ⟨true, [], []⟩ := by
    rw [getW_clearTimerOpt]; exact hws
  refine ⟨?_, ?_, ?_, ?_, ?_, ?_⟩
  · exact hwt (fun x => getW w x = ⟨true, [], []⟩)
      (getW_removeTimeout_clean hg1 ot.id)
  · refine hwt (fun x => x.log = s.log) ?_
    show (DefaultWorker.removeTimeout w ot.id (clearTimerOpt ot.id s)).log = s.log
    rw [(removeTimeout_log_uncaught w ot.id _).1]
    cases ot.id <;> rfl
  · refine hwt (fun x => x.uncaught = s.uncaught) ?_
    show (DefaultWorker.removeTimeout w ot.id (clearTimerOpt ot.id s)).uncaught = s.uncaught
    rw [(removeTimeout_log_uncaught w ot.id _).2]
    cases ot.id <;> rfl
  all_goals
    simp only [WorkerPeriodicTask.dispose, hp, hpp]
  · split
    · exact getW_removeInterval_clean
        (by rw [getW_clearTimer]; split
            · exact getW_removeTimeout_clean (by rw [getW_clearTimer]; exact hws) op.initialId
            · exact hws) op.periodId
    · split
      · exact getW_removeTimeout_clean (by rw [getW_clearTimer]; exact hws) op.initialId
      · exact hws
  · split
    · rw [(removeInterval_log_uncaught w op.periodId _).1]
      show (if isTruthy op.initialId then DefaultWorker.removeTimeout w op.initialId
          (clearTimer (op.initialId.getD 0) s) else s).log = s.log
      split
      · rw [(removeTimeout_log_uncaught w op.initialId _).1]
        rfl
      · rfl
    · split
      · rw [(removeTimeout_log_uncaught w op.initialId _).1]
        rfl
      · rfl
  · split
    · rw [(removeInterval_log_uncaught w op.periodId _).2]
      show (if isTruthy op.initialId then DefaultWorker.removeTimeout w op.initialId
          (clearTimer (op.initialId.getD 0) s) else s).uncaught = s.uncaught
      split
      · rw [(removeTimeout_log_uncaught w op.initialId _).2]
        rfl
      · rfl
    · split
      · rw [(removeTimeout_log_uncaught w op.initialId _).2]
        rfl
      · rfl

/-- The worker of `sW7` after `shutdown()`. -/
def sW10 : Sys := DefaultWorker.shutdown 0 sW7

theorem C10_dispose_after_shutdown_witness :
    getW 0 sW10 = ⟨true, [], []⟩
    ∧ lookupA 1 sW10.wtasks = some ⟨0, 7, some 1⟩
    ∧ lookupA 2 sW10.wptasks = some ⟨0, 8, none, none⟩
    ∧ getW 0 (WorkerTask.dispose 1 sW10) = ⟨true, [], []⟩
    ∧ getW 0 (WorkerPeriodicTask.dispose 2 sW10) = ⟨true, [], []⟩
    ∧ (WorkerTask.dispose 1 sW10).log = sW10.log
    ∧ (WorkerPeriodicTask.dispose 2 sW10).uncaught = sW10.uncaught :=
  have hws : getW 0 sW10 = ⟨true, [], []⟩ := by decide
  have ht : lookupA 1 sW10.wtasks = some ⟨0, 7, some 1⟩ := by decide
  have hp : lookupA 2 sW10.wptasks = some ⟨0, 8, none, none⟩ := by decide
  ⟨hws, ht, hp,
   (C10_dispose_after_shutdown sW10 0 1 2 ⟨0, 7, some 1⟩ ⟨0, 8, none, none⟩
     hws ht rfl hp rfl).1,
   (C10_dispose_after_shutdown sW10 0 1 2 ⟨0, 7, some 1⟩ ⟨0, 8, none, none⟩
     hws ht rfl hp rfl).2.2.2.1,
   (C10_dispose_after_shutdown sW10 0 1 2 ⟨0, 7, some 1⟩ ⟨0, 8, none, none⟩
     hws ht rfl hp rfl).2.1,
   (C10_dispose_after_shutdown sW10 0 1 2 ⟨0, 7, some 1⟩ ⟨0, 8, none, none⟩
     hws ht rfl hp rfl).2.2.2.2.2⟩
